import Mathlib

/-!
Verification of the clipboard-history store of this repository.

The store logic lives in a single React component (`src/unnamed/part_000`).
We embed its pure core shallowly: JavaScript strings become Lean `String`
(a list of characters), the component state relevant to the store becomes
`StoreState`, and each event handler becomes a state-transforming function.
The transient input-widget state (textarea content, selected tags, chosen
content type, clock readings) is passed as arguments of the corresponding
operation, since the handlers consume and reset it.
-/

namespace Clipboard

/-! ### JavaScript string primitives -/

/-- Character class used by `String.prototype.trim` (whitespace). -/
def wsChar (c : Char) : Bool := c.isWhitespace

/-- Model of JavaScript `s.trim()`: drop leading and trailing whitespace. -/
def jsTrim (s : String) : String :=
  ⟨((s.data.dropWhile wsChar).reverse.dropWhile wsChar).reverse⟩

/-- Model of JavaScript `s.toLowerCase()`: character-wise lowercasing. -/
def jsToLower (s : String) : String :=
  ⟨s.data.map Char.toLower⟩

/-- Model of JavaScript `s.substring(0, n)`. -/
def jsSubstringTo (s : String) (n : Nat) : String :=
  ⟨s.data.take n⟩

/-- Model of JavaScript `s.startsWith(pre)` (used for the regex
`^https?:\/\/`, which is equivalent to one of two literal prefixes). -/
def jsStartsWith (s pre : String) : Bool :=
  pre.data.isPrefixOf s.data

/-- Bool-valued contiguous-sublist test on character lists. -/
def hasInfix (hay pat : List Char) : Bool :=
  if pat.isPrefixOf hay then true
  else
    match hay with
    | [] => false
    | _ :: t => hasInfix t pat

/-- Model of JavaScript `s.includes(sub)`. -/
def jsIncludes (s sub : String) : Bool :=
  hasInfix s.data sub.data

/-- Numeric value of a list of decimal digits. -/
def digitsVal (l : List Char) : Nat :=
  l.foldl (fun a c => a * 10 + (c.toNat - ('0').toNat)) 0

/-- Model of JavaScript `Number.parseInt(s, 10)`: skip leading whitespace,
read an optional sign and then the longest run of decimal digits; `none`
models the result `NaN` (no digits found).  The call at line 474 omits the
radix argument, which only differs on `0x`-prefixed inputs; the inputs
relevant here are decimal. -/
def parseIntJs (s : String) : Option Int :=
  match s.data.dropWhile wsChar with
  | '-' :: rest =>
      let d := rest.takeWhile Char.isDigit
      if d = [] then none else some (-(digitsVal d : Int))
  | '+' :: rest =>
      let d := rest.takeWhile Char.isDigit
      if d = [] then none else some ((digitsVal d : Int))
  | l =>
      let d := l.takeWhile Char.isDigit
      if d = [] then none else some ((digitsVal d : Int))

/-- JavaScript `x || d` for a number `x`: `NaN` (here `none`) and `0` are
falsy and give `d`. -/
def jsOrInt (o : Option Int) (d : Int) : Int :=
  match o with
  | none => d
  | some 0 => d
  | some n => n

/-! ### Data model (`ClipboardItem`, source lines 32-41) -/

/-- The `type` union `"text" | "markdown" | "code" | "url"`. -/
inductive ContentType where
  | text
  | markdown
  | code
  | url
deriving DecidableEq, Repr

/-- The `ClipboardItem` interface (source lines 32-39). -/
structure ClipboardItem where
  id : String
  text : String
  timestamp : Nat
  preview : String
  tags : List String
  type : ContentType
deriving DecidableEq, Repr

/-- `PREDEFINED_TAGS` (source line 41). -/
def PREDEFINED_TAGS : List String :=
  ["Work", "Personal", "Code", "Links", "Notes", "Temp"]

/-! ### Pure helpers of the component -/

/-- `createPreview` (source lines 121-123):
`text.length > 50 ? text.substring(0, 50) + "..." : text`. -/
def createPreview (text : String) : String :=
  if 50 < text.length then jsSubstringTo text 50 ++ "..." else text

/-- `detectContentType` (source lines 125-132). -/
def detectContentType (text : String) : ContentType :=
  if jsStartsWith text "http://" || jsStartsWith text "https://" then
    ContentType.url
  else if jsIncludes text "```" || jsIncludes text "function" ||
      jsIncludes text "const " || jsIncludes text "import " then
    ContentType.code
  else if jsIncludes text "#" || jsIncludes text "**" || jsIncludes text "*" ||
      jsIncludes text "[" || jsIncludes text "]" then
    ContentType.markdown
  else
    ContentType.text

/-! ### Store state and operations -/

/-- The component state the store claims are about: the entry list `items`
and the capacity setting `maxItems` (an `Int`; JavaScript numbers are
integral on every path the operations below produce). -/
structure StoreState where
  items : List ClipboardItem
  maxItems : Int
deriving DecidableEq, Repr

/-- Initial state: `useState<ClipboardItem[]>([])` and `useState(50)`
(source lines 51 and 56). -/
def initState : StoreState :=
  { items := [], maxItems := 50 }

/-- The `newItem` literal built inside `saveText` (source lines 149-158).
`raw` is the textarea content, `tags` the selected tags, `contentType` the
chosen type, `nowId` and `nowTs` the two `Date.now()` readings (lines 152
and 154). -/
def mkNewItem (raw : String) (tags : List String) (contentType : ContentType)
    (nowId nowTs : Nat) : ClipboardItem :=
  { id := Nat.repr nowId
    text := jsTrim raw
    timestamp := nowTs
    preview := createPreview (jsTrim raw)
    tags := tags
    type := if contentType = ContentType.text then
        detectContentType (jsTrim raw)
      else contentType }

/-- `saveText` (source lines 146-164): guarded no-op on empty trim, else
remove any entry with the same text, prepend the new entry and truncate to
`maxItems` (`slice(0, maxItems)`). -/
def saveText (s : StoreState) (raw : String) (tags : List String)
    (contentType : ContentType) (nowId nowTs : Nat) : StoreState :=
  if jsTrim raw = "" then s
  else
    let newItem := mkNewItem raw tags contentType nowId nowTs
    let filtered := s.items.filter (fun item => item.text ≠ newItem.text)
    { s with items := (newItem :: filtered).take s.maxItems.toNat }

/-- `deleteItem` (source lines 196-202). -/
def deleteItem (s : StoreState) (targetId : String) : StoreState :=
  { s with items := s.items.filter (fun item => item.id ≠ targetId) }

/-- `clearAll` (source lines 204-210). -/
def clearAll (s : StoreState) : StoreState :=
  { s with items := [] }

/-- The `onChange` handler of the max-entries input (source line 474):
`Math.max(1, Number.parseInt(e.target.value) || 50)`. -/
def setMaxItemsHandler (input : String) : Int :=
  max 1 (jsOrInt (parseIntJs input) 50)

/-- Applying the max-entries handler to the store state. -/
def applySetMaxItems (s : StoreState) (input : String) : StoreState :=
  { s with maxItems := setMaxItemsHandler input }

/-- The persisted-setting load (source lines 80-82):
`if (savedMaxItems) setMaxItems(Number.parseInt(savedMaxItems, 10))`.
`none` as argument models an absent key (`getItem` returned `null`); the
empty string is falsy, so both leave the default `50`.  A `none` result
models the in-memory value becoming `NaN` (no validation is applied). -/
def loadedMaxItems (saved : Option String) : Option Int :=
  match saved with
  | none => some 50
  | some str => if str = "" then some 50 else parseIntJs str

/-- The persisted entry-list load (source lines 72-78).  The argument is
the outcome of `localStorage.getItem` plus `JSON.parse` (a host builtin):
outer `none` = key absent, `some none` = `JSON.parse` threw (corrupt JSON,
caught at line 75), `some (some its)` = parsed successfully. -/
def loadItems (saved : Option (Option (List ClipboardItem))) :
    List ClipboardItem :=
  match saved with
  | none => []
  | some none => []
  | some (some its) => its

/-- The persisted tag-vocabulary load (source lines 84-90), same
convention; a parse failure explicitly falls back to `PREDEFINED_TAGS`
(line 88), an absent key keeps the `useState` default (line 59). -/
def loadTags (saved : Option (Option (List String))) : List String :=
  match saved with
  | none => PREDEFINED_TAGS
  | some none => PREDEFINED_TAGS
  | some (some ts) => ts

/-! ### Search / filter (source lines 243-248) -/

/-- `matchesSearch` (source line 244). -/
def matchesSearch (item : ClipboardItem) (searchQuery : String) : Bool :=
  jsIncludes (jsToLower item.text) (jsToLower searchQuery)

/-- `matchesTags` (source lines 245-246). -/
def matchesTags (item : ClipboardItem) (selectedTags : List String)
    (isTagFilterActive : Bool) : Bool :=
  !isTagFilterActive || selectedTags.isEmpty ||
    selectedTags.any (fun tag => item.tags.contains tag)

/-- `filteredItems` (source lines 243-248). -/
def filteredItems (items : List ClipboardItem) (searchQuery : String)
    (selectedTags : List String) (isTagFilterActive : Bool) :
    List ClipboardItem :=
  items.filter (fun item =>
    matchesSearch item searchQuery &&
      matchesTags item selectedTags isTagFilterActive)

/-! ### The operation machine -/

/-- One user-level store operation.  A `save` carries the textarea content,
the selected tags, the chosen content type and the two `Date.now()`
readings of lines 152 and 154. -/
inductive Op where
  | save (raw : String) (tags : List String) (contentType : ContentType)
      (nowId nowTs : Nat)
  | delete (targetId : String)
  | clear
  | setMax (input : String)

/-- One step of the machine. -/
def step (s : StoreState) : Op → StoreState
  | Op.save raw tags ct ni nt => saveText s raw tags ct ni nt
  | Op.delete i => deleteItem s i
  | Op.clear => clearAll s
  | Op.setMax input => applySetMaxItems s input

/-- Run a list of operations from a state. -/
def run (s : StoreState) : List Op → StoreState
  | [] => s
  | op :: ops => run (step s op) ops

/-- The state reached from the initial state by a list of operations. -/
def reach (ops : List Op) : StoreState :=
  run initState ops

/-- The id strings generated by the `save` operations of a trace
(`Date.now().toString()`, source line 152). -/
def saveIds : List Op → List String
  | [] => []
  | op :: rest =>
      match op with
      | Op.save _ _ _ ni _ => Nat.repr ni :: saveIds rest
      | _ => saveIds rest

/-- Ids currently stored. -/
def idsOf (s : StoreState) : List String :=
  s.items.map (fun i => i.id)

/-! ### The detection patterns, stated as in the specification -/

/-- The trimmed text starts with `http://` or `https://`. -/
def urlPattern (t : String) : Prop :=
  jsStartsWith t "http://" = true ∨ jsStartsWith t "https://" = true

/-- The text contains a fenced-code marker or a code keyword. -/
def codePattern (t : String) : Prop :=
  jsIncludes t "```" = true ∨ jsIncludes t "function" = true ∨
    jsIncludes t "const " = true ∨ jsIncludes t "import " = true

/-- The text contains a markdown marker. -/
def markdownPattern (t : String) : Prop :=
  jsIncludes t "#" = true ∨ jsIncludes t "**" = true ∨
    jsIncludes t "*" = true ∨ jsIncludes t "[" = true ∨
    jsIncludes t "]" = true

/-! ### Basic lemmas about the operations -/

lemma saveText_maxItems (s : StoreState) (raw : String) (tags : List String)
    (ct : ContentType) (ni nt : Nat) :
    (saveText s raw tags ct ni nt).maxItems = s.maxItems := by
  unfold saveText
  split <;> rfl

lemma saveText_of_trim_empty (s : StoreState) (raw : String)
    (tags : List String) (ct : ContentType) (ni nt : Nat)
    (h : jsTrim raw = "") : saveText s raw tags ct ni nt = s := by
  unfold saveText
  rw [if_pos h]

lemma saveText_items (s : StoreState) (raw : String) (tags : List String)
    (ct : ContentType) (ni nt : Nat) (h : jsTrim raw ≠ "") :
    (saveText s raw tags ct ni nt).items =
      (mkNewItem raw tags ct ni nt ::
        s.items.filter
          (fun item => item.text ≠ (mkNewItem raw tags ct ni nt).text)).take
        s.maxItems.toNat := by
  unfold saveText
  rw [if_neg h]

lemma run_cons (s : StoreState) (op : Op) (ops : List Op) :
    run s (op :: ops) = run (step s op) ops := rfl

/-- Invariance along a run. -/
lemma run_inv (P : StoreState → Prop)
    (hstep : ∀ s op, P s → P (step s op)) :
    ∀ (ops : List Op) (s : StoreState), P s → P (run s ops) := by
  intro ops
  induction ops with
  | nil => intro s hs; exact hs
  | cons op rest ih => intro s hs; exact ih (step s op) (hstep s op hs)

/-- Invariance of reachable states. -/
lemma reach_inv (P : StoreState → Prop) (h0 : P initState)
    (hstep : ∀ s op, P s → P (step s op)) :
    ∀ ops : List Op, P (reach ops) :=
  fun ops => run_inv P hstep ops initState h0

/-- Every reachable state has `maxItems ≥ 1`. -/
lemma reach_maxItems_pos : ∀ ops : List Op, 1 ≤ (reach ops).maxItems := by
  apply reach_inv (fun s => 1 ≤ s.maxItems)
  · norm_num [initState]
  · intro s op hs
    cases op with
    | save raw tags ct ni nt => rw [step, saveText_maxItems]; exact hs
    | delete i => exact hs
    | clear => exact hs
    | setMax input => exact le_max_left 1 _

lemma mkNewItem_text (raw : String) (tags : List String) (ct : ContentType)
    (ni nt : Nat) : (mkNewItem raw tags ct ni nt).text = jsTrim raw := rfl

/-- Members of the filtered list do not carry the new item's text. -/
lemma mem_dedup_filter {s : StoreState} {x n : ClipboardItem}
    (hx : x ∈ s.items.filter (fun item => item.text ≠ n.text)) :
    x ∈ s.items ∧ x.text ≠ n.text := by
  rcases List.mem_filter.mp hx with ⟨hmem, hne⟩
  exact ⟨hmem, by simpa using hne⟩

/-- The stored texts of a reachable state are pairwise distinct. -/
lemma reach_texts_nodup :
    ∀ ops : List Op, ((reach ops).items.map (fun i => i.text)).Nodup := by
  apply reach_inv (fun s => (s.items.map (fun i => i.text)).Nodup)
  · simp [initState]
  · intro s op hs
    cases op with
    | save raw tags ct ni nt =>
      by_cases h : jsTrim raw = ""
      · rw [step, saveText_of_trim_empty s raw tags ct ni nt h]; exact hs
      · rw [step, saveText_items s raw tags ct ni nt h]
        apply List.Nodup.sublist (List.Sublist.map _ (List.take_sublist _ _))
        rw [List.map_cons]
        refine List.nodup_cons.mpr ⟨?_, ?_⟩
        · intro hmem
          rcases List.mem_map.mp hmem with ⟨x, hx, hxt⟩
          exact (mem_dedup_filter hx).2 hxt
        · exact List.Nodup.sublist
            (List.Sublist.map _ (List.filter_sublist _)) hs
    | delete i =>
      exact List.Nodup.sublist
        (List.Sublist.map _ (List.filter_sublist _)) hs
    | clear => simp [step, clearAll]
    | setMax input => exact hs

/-- An item created with the sentinel explicit type carries the
auto-detected type of its own text; with a non-sentinel explicit type it
carries that type. -/
lemma mkNewItem_type (raw : String) (tags : List String) (ct : ContentType)
    (ni nt : Nat) :
    (mkNewItem raw tags ct ni nt).type =
      (if ct = ContentType.text then detectContentType (jsTrim raw)
        else ct) := rfl

/-- In every reachable state, an entry typed `text` has auto-detection
resolving its own text to `text`. -/
lemma reach_type_inv :
    ∀ ops : List Op, ∀ e ∈ (reach ops).items,
      e.type = ContentType.text →
        detectContentType e.text = ContentType.text := by
  apply reach_inv
    (fun s => ∀ e ∈ s.items,
      e.type = ContentType.text →
        detectContentType e.text = ContentType.text)
  · simp [initState]
  · intro s op hs
    cases op with
    | save raw tags ct ni nt =>
      by_cases h : jsTrim raw = ""
      · rw [step, saveText_of_trim_empty s raw tags ct ni nt h]; exact hs
      · rw [step, saveText_items s raw tags ct ni nt h]
        intro e he het
        have he' := (List.take_sublist _ _).subset he
        rcases List.mem_cons.mp he' with he'' | he''
        · subst he''
          rw [mkNewItem_type] at het
          by_cases hct : ct = ContentType.text
          · rw [if_pos hct] at het
            rw [mkNewItem_text]
            exact het
          · rw [if_neg hct] at het
            exact absurd het hct
        · exact hs e (mem_dedup_filter he'').1 het
    | delete i =>
      intro e he het
      exact hs e (List.mem_filter.mp he).1 het
    | clear => simp [step, clearAll]
    | setMax input => exact hs

/-! ### Id bookkeeping -/

lemma idsOf_nodup_of_sublist {s : StoreState} {l : List ClipboardItem}
    (hsub : List.Sublist l s.items) (hs : (idsOf s).Nodup) :
    (l.map (fun i => i.id)).Nodup :=
  List.Nodup.sublist (List.Sublist.map _ hsub) hs

/-- Main induction for id uniqueness: if the ids yet to be generated are
pairwise distinct, the current ids are pairwise distinct and avoid all the
ids yet to be generated, then the final ids are pairwise distinct. -/
lemma run_ids_nodup :
    ∀ (ops : List Op) (s : StoreState), (saveIds ops).Nodup →
      (idsOf s).Nodup → (∀ e ∈ s.items, e.id ∉ saveIds ops) →
      (idsOf (run s ops)).Nodup := by
  intro ops
  induction ops with
  | nil => intro s _ h2 _; exact h2
  | cons op rest ih =>
    intro s h1 h2 h3
    rw [run_cons]
    cases op with
    | save raw tags ct ni nt =>
      have h1' : (Nat.repr ni :: saveIds rest).Nodup := h1
      have hhead : Nat.repr ni ∉ saveIds rest := (List.nodup_cons.mp h1').1
      have htail : (saveIds rest).Nodup := (List.nodup_cons.mp h1').2
      by_cases h : jsTrim raw = ""
      · rw [step, saveText_of_trim_empty s raw tags ct ni nt h]
        refine ih s htail h2 ?_
        intro e he
        have := h3 e he
        intro hc
        exact this (List.mem_cons_of_mem _ hc)
      · refine ih _ htail ?_ ?_
        · show ((saveText s raw tags ct ni nt).items.map
            (fun i => i.id)).Nodup
          rw [saveText_items s raw tags ct ni nt h]
          apply List.Nodup.sublist (List.Sublist.map _ (List.take_sublist _ _))
          rw [List.map_cons]
          refine List.nodup_cons.mpr ⟨?_, ?_⟩
          · intro hmem
            rcases List.mem_map.mp hmem with ⟨x, hx, hxt⟩
            have hxs := (mem_dedup_filter hx).1
            have : (mkNewItem raw tags ct ni nt).id ∈ saveIds
                (Op.save raw tags ct ni nt :: rest) := by
              show Nat.repr ni ∈ Nat.repr ni :: saveIds rest
              exact List.mem_cons_self _ _
            rw [← hxt] at this
            exact h3 x hxs this
          · exact idsOf_nodup_of_sublist (List.filter_sublist _) h2
        · rw [step, saveText_items s raw tags ct ni nt h]
          intro e he
          have he' := (List.take_sublist _ _).subset he
          rcases List.mem_cons.mp he' with he'' | he''
          · subst he''
            show Nat.repr ni ∉ saveIds rest
            exact hhead
          · intro hc
            exact h3 e (mem_dedup_filter he'').1 (List.mem_cons_of_mem _ hc)
    | delete i =>
      refine ih _ h1 (idsOf_nodup_of_sublist (List.filter_sublist _) h2) ?_
      intro e he
      exact h3 e (List.mem_filter.mp he).1
    | clear =>
      refine ih _ h1 (by simp [idsOf, step, clearAll]) ?_
      intro e he
      simp [step, clearAll] at he
    | setMax input =>
      exact ih _ h1 h2 h3

/-! ### Characterization of `detectContentType` -/

lemma detect_branch_url (t : String) :
    (jsStartsWith t "http://" || jsStartsWith t "https://") = true ↔
      urlPattern t := by
  simp [urlPattern]

lemma detect_branch_code (t : String) :
    (jsIncludes t "```" || jsIncludes t "function" ||
      jsIncludes t "const " || jsIncludes t "import ") = true ↔
      codePattern t := by
  simp [codePattern, or_assoc]

lemma detect_branch_markdown (t : String) :
    (jsIncludes t "#" || jsIncludes t "**" || jsIncludes t "*" ||
      jsIncludes t "[" || jsIncludes t "]") = true ↔
      markdownPattern t := by
  simp [markdownPattern, or_assoc]

/-- Priority-ordered characterization of the content-type detector. -/
lemma detect_characterization (t : String) :
    (detectContentType t = ContentType.url ↔ urlPattern t) ∧
    (detectContentType t = ContentType.code ↔
      ¬ urlPattern t ∧ codePattern t) ∧
    (detectContentType t = ContentType.markdown ↔
      ¬ urlPattern t ∧ ¬ codePattern t ∧ markdownPattern t) ∧
    (detectContentType t = ContentType.text ↔
      ¬ urlPattern t ∧ ¬ codePattern t ∧ ¬ markdownPattern t) := by
  unfold detectContentType
  by_cases h1 : (jsStartsWith t "http://" || jsStartsWith t "https://") = true
  · rw [if_pos h1]
    rw [detect_branch_url] at h1
    simp [h1]
  · rw [if_neg h1]
    rw [detect_branch_url] at h1
    by_cases h2 : (jsIncludes t "```" || jsIncludes t "function" ||
        jsIncludes t "const " || jsIncludes t "import ") = true
    · rw [if_pos h2]
      rw [detect_branch_code] at h2
      simp [h1, h2]
    · rw [if_neg h2]
      rw [detect_branch_code] at h2
      by_cases h3 : (jsIncludes t "#" || jsIncludes t "**" ||
          jsIncludes t "*" || jsIncludes t "[" || jsIncludes t "]") = true
      · rw [if_pos h3]
        rw [detect_branch_markdown] at h3
        simp [h1, h2, h3]
      · rw [if_neg h3]
        rw [detect_branch_markdown] at h3
        simp [h1, h2, h3]

/-! ### Search lemmas -/

lemma jsIncludes_empty_right (s : String) : jsIncludes s "" = true := by
  show hasInfix s.data [] = true
  cases s.data <;> simp [hasInfix, List.isPrefixOf]

lemma matchesTags_inactive (item : ClipboardItem) (sel : List String) :
    matchesTags item sel false = true := by
  simp [matchesTags]

/-- After an effective save on a reachable state, the new item is at the
head of the list (capacity is at least 1 on every reachable state). -/
lemma saveText_head (ops : List Op) (raw : String) (tags : List String)
    (ct : ContentType) (ni nt : Nat) (h : jsTrim raw ≠ "") :
    (saveText (reach ops) raw tags ct ni nt).items.head? =
      some (mkNewItem raw tags ct ni nt) := by
  have hmax := reach_maxItems_pos ops
  obtain ⟨k, hk⟩ : ∃ k, (reach ops).maxItems.toNat = k + 1 :=
    ⟨(reach ops).maxItems.toNat - 1, by omega⟩
  rw [saveText_items _ _ _ _ _ _ h, hk, List.take_succ_cons]
  rfl

/-! ## The claims -/

/-- C1, counterexample: saving two distinct texts and then lowering the
`maxItems` setting to 1 leaves a reachable state whose entry list (length
2) exceeds the current `maxItems` (1): the settings handler never
truncates the stored list. -/
theorem c1_counterexample :
    (reach [Op.save "a" [] ContentType.text 0 0,
      Op.save "b" [] ContentType.text 1 1, Op.setMax "1"]).items.length = 2 ∧
    (reach [Op.save "a" [] ContentType.text 0 0,
      Op.save "b" [] ContentType.text 1 1, Op.setMax "1"]).maxItems = 1 ∧
    ¬ ((reach [Op.save "a" [] ContentType.text 0 0,
      Op.save "b" [] ContentType.text 1 1, Op.setMax "1"]).items.length ≤
        (reach [Op.save "a" [] ContentType.text 0 0,
          Op.save "b" [] ContentType.text 1 1,
          Op.setMax "1"]).maxItems.toNat) := by
  decide

/-- C1, amended: after every effective save the entry list length is at
most the current `maxItems` and the kept entries are an initial segment of
the deduplicated list headed by the new entry (so the entries dropped are
those at the tail); `delete` never increases the length and `clearAll`
empties the list.  A change to the `maxItems` setting, however, does not
truncate the existing list (see the counterexample). -/
theorem c1_amended : ∀ (ops : List Op) (raw : String) (tags : List String)
    (ct : ContentType) (ni nt : Nat) (tid : String),
    (jsTrim raw ≠ "" →
      (saveText (reach ops) raw tags ct ni nt).items.length ≤
        (saveText (reach ops) raw tags ct ni nt).maxItems.toNat ∧
      (saveText (reach ops) raw tags ct ni nt).items.head? =
        some (mkNewItem raw tags ct ni nt) ∧
      (saveText (reach ops) raw tags ct ni nt).items <+:
        mkNewItem raw tags ct ni nt ::
          (reach ops).items.filter
            (fun item => item.text ≠ (mkNewItem raw tags ct ni nt).text)) ∧
    (deleteItem (reach ops) tid).items.length ≤ (reach ops).items.length ∧
    (clearAll (reach ops)).items = [] := by
  intro ops raw tags ct ni nt tid
  refine ⟨fun h => ⟨?_, saveText_head ops raw tags ct ni nt h, ?_⟩,
    List.length_filter_le _ _, rfl⟩
  · rw [saveText_maxItems, saveText_items _ _ _ _ _ _ h]
    exact List.length_take_le _ _
  · rw [saveText_items _ _ _ _ _ _ h]
    exact ⟨_, List.take_append_drop _ _⟩

/-- C1, witness for the amended theorem at a concrete input. -/
theorem c1_witness :
    (saveText (reach []) "x" [] ContentType.text 0 0).items.length ≤
      (saveText (reach []) "x" [] ContentType.text 0 0).maxItems.toNat :=
  ((c1_amended [] "x" [] ContentType.text 0 0 "t").1 (by decide)).1

/-- C2: texts of a reachable store are pairwise distinct, and after an
effective save exactly one stored entry carries the trimmed text; it sits
at position 0 and carries the freshly generated id
(`Date.now().toString()`) and timestamp. -/
theorem c2_theorem : ∀ (ops : List Op) (raw : String) (tags : List String)
    (ct : ContentType) (ni nt : Nat),
    ((reach ops).items.map (fun i => i.text)).Nodup ∧
    (jsTrim raw ≠ "" →
      (saveText (reach ops) raw tags ct ni nt).items.countP
        (fun e => e.text = jsTrim raw) = 1 ∧
      (saveText (reach ops) raw tags ct ni nt).items.head? =
        some (mkNewItem raw tags ct ni nt) ∧
      (mkNewItem raw tags ct ni nt).id = Nat.repr ni ∧
      (mkNewItem raw tags ct ni nt).timestamp = nt) := by
  intro ops raw tags ct ni nt
  refine ⟨reach_texts_nodup ops, fun h => ?_⟩
  have hmax := reach_maxItems_pos ops
  obtain ⟨k, hk⟩ : ∃ k, (reach ops).maxItems.toNat = k + 1 :=
    ⟨(reach ops).maxItems.toNat - 1, by omega⟩
  refine ⟨?_, saveText_head ops raw tags ct ni nt h, rfl, rfl⟩
  rw [saveText_items _ _ _ _ _ _ h, hk, List.take_succ_cons,
    List.countP_cons]
  have hz : List.countP (fun e => decide (e.text = jsTrim raw))
      (List.take k ((reach ops).items.filter
        (fun item =>
          item.text ≠ (mkNewItem raw tags ct ni nt).text))) = 0 := by
    rw [List.countP_eq_zero]
    intro a ha
    have ha' := (List.take_sublist _ _).subset ha
    have hne := (mem_dedup_filter ha').2
    rw [mkNewItem_text] at hne
    simpa using hne
  rw [hz]
  simp [mkNewItem_text]

/-- C2, witness at a concrete input. -/
theorem c2_witness :
    (saveText (reach []) "dup" [] ContentType.text 7 7).items.countP
      (fun e => e.text = jsTrim "dup") = 1 :=
  ((c2_theorem [] "dup" [] ContentType.text 7 7).2 (by decide)).1

/-- C3: when the explicit type is the sentinel `text`, the stored type is
the auto-detected type of the trimmed text; detection follows the claimed
priority order (url, then code, then markdown, then text), and the four
scenario inputs resolve as claimed. -/
theorem c3_theorem : ∀ (ops : List Op) (raw : String) (tags : List String)
    (ni nt : Nat) (t : String),
    (detectContentType t = ContentType.url ↔ urlPattern t) ∧
    (detectContentType t = ContentType.code ↔
      ¬ urlPattern t ∧ codePattern t) ∧
    (detectContentType t = ContentType.markdown ↔
      ¬ urlPattern t ∧ ¬ codePattern t ∧ markdownPattern t) ∧
    (detectContentType t = ContentType.text ↔
      ¬ urlPattern t ∧ ¬ codePattern t ∧ ¬ markdownPattern t) ∧
    (jsTrim raw ≠ "" →
      (saveText (reach ops) raw tags ContentType.text ni nt).items.head? =
        some (mkNewItem raw tags ContentType.text ni nt) ∧
      (mkNewItem raw tags ContentType.text ni nt).type =
        detectContentType (jsTrim raw)) ∧
    detectContentType "https://example.com" = ContentType.url ∧
    detectContentType "# Title\n**bold**" = ContentType.markdown ∧
    detectContentType "const x = 1" = ContentType.code ∧
    detectContentType "hello world" = ContentType.text := by
  intro ops raw tags ni nt t
  obtain ⟨hu, hc, hm, ht⟩ := detect_characterization t
  refine ⟨hu, hc, hm, ht, fun h =>
    ⟨saveText_head ops raw tags ContentType.text ni nt h, ?_⟩,
    by decide, by decide, by decide, by decide⟩
  simp [mkNewItem_type]

/-- C3, witness at a concrete input. -/
theorem c3_witness :
    (mkNewItem "const x = 1" [] ContentType.text 9 9).type =
      detectContentType (jsTrim "const x = 1") :=
  ((c3_theorem [] "const x = 1" [] 9 9 "t").2.2.2.2.1 (by decide)).2

/-- C4, counterexample: two saves of distinct texts at the same clock
millisecond produce two stored entries with the same id ("5"), so stored
ids are not pairwise distinct. -/
theorem c4_counterexample :
    idsOf (reach [Op.save "a" [] ContentType.text 5 5,
      Op.save "b" [] ContentType.text 5 5]) = ["5", "5"] ∧
    ¬ (idsOf (reach [Op.save "a" [] ContentType.text 5 5,
      Op.save "b" [] ContentType.text 5 5])).Nodup := by
  decide

/-- C4, amended: along any trace whose saves generate pairwise distinct id
strings (equivalently, whose saves read pairwise distinct clock
milliseconds, since `Nat.repr` renders distinct numbers distinctly), the
stored ids are pairwise distinct after every operation sequence. -/
theorem c4_amended : ∀ ops : List Op,
    (saveIds ops).Nodup → (idsOf (reach ops)).Nodup := by
  intro ops h
  refine run_ids_nodup ops initState h ?_ ?_
  · simp [idsOf, initState]
  · simp [initState]

/-- C4, witness for the amended theorem at a concrete trace. -/
theorem c4_witness :
    (idsOf (reach [Op.save "a" [] ContentType.text 1 1,
      Op.save "b" [] ContentType.text 2 2])).Nodup :=
  c4_amended _ (by decide)

/-- C5, counterexample: the settings handler accepts 500 (no upper clamp
at 200), and loading the persisted string "abc" yields `NaN` (modelled
`none`) rather than the default 50. -/
theorem c5_counterexample :
    setMaxItemsHandler "500" = 500 ∧ ¬ (setMaxItemsHandler "500" ≤ 200) ∧
    loadedMaxItems (some "abc") = none := by
  decide

/-- C5, amended: every user update yields an integer at least 1, with 50
substituted when the input does not parse to a number; nothing bounds the
value above, and the load path applies no validation at all (see the
counterexample).  An absent persisted value keeps the default 50. -/
theorem c5_amended : ∀ input : String,
    1 ≤ setMaxItemsHandler input ∧
    (parseIntJs input = none → setMaxItemsHandler input = 50) ∧
    loadedMaxItems none = some 50 := by
  intro input
  refine ⟨le_max_left 1 _, fun h => ?_, rfl⟩
  simp [setMaxItemsHandler, h, jsOrInt]

/-- C5, witness for the amended theorem at a concrete input. -/
theorem c5_witness : setMaxItemsHandler "abc" = 50 :=
  (c5_amended "abc").2.1 (by decide)

/-- C6, counterexample: the single-space string is non-empty, yet saving
it creates no entry (the guard rejects whitespace-only text), refuting the
claim as stated for every non-empty text. -/
theorem c6_counterexample :
    (" " : String) ≠ "" ∧
    saveText initState " " [] ContentType.text 0 0 = initState ∧
    (saveText initState " " [] ContentType.text 0 0).items = [] := by
  decide

/-- C6, amended: for every text with non-empty trim, the saved entry's
preview equals its stored (trimmed) text when that text has at most 50
characters, else the first 50 characters followed by "..."; the preview
never exceeds 53 characters. -/
theorem c6_amended : ∀ (ops : List Op) (raw : String) (tags : List String)
    (ct : ContentType) (ni nt : Nat),
    jsTrim raw ≠ "" →
    (saveText (reach ops) raw tags ct ni nt).items.head? =
      some (mkNewItem raw tags ct ni nt) ∧
    ((jsTrim raw).length ≤ 50 →
      (mkNewItem raw tags ct ni nt).preview =
        (mkNewItem raw tags ct ni nt).text) ∧
    (50 < (jsTrim raw).length →
      (mkNewItem raw tags ct ni nt).preview =
        jsSubstringTo (jsTrim raw) 50 ++ "...") ∧
    (mkNewItem raw tags ct ni nt).preview.length ≤ 53 := by
  intro ops raw tags ct ni nt h
  refine ⟨saveText_head ops raw tags ct ni nt h, ?_, ?_, ?_⟩
  · intro hle
    show createPreview (jsTrim raw) = jsTrim raw
    unfold createPreview
    rw [if_neg (by omega)]
  · intro hgt
    show createPreview (jsTrim raw) = jsSubstringTo (jsTrim raw) 50 ++ "..."
    unfold createPreview
    rw [if_pos hgt]
  · show (createPreview (jsTrim raw)).length ≤ 53
    unfold createPreview
    split
    · rw [String.length_append]
      have h50 : (jsSubstringTo (jsTrim raw) 50).length ≤ 50 :=
        List.length_take_le _ _
      have h3 : ("..." : String).length = 3 := rfl
      omega
    · next hle => omega

/-- C6, witness for the amended theorem at a concrete input. -/
theorem c6_witness :
    (mkNewItem "hey" [] ContentType.text 0 0).preview =
      (mkNewItem "hey" [] ContentType.text 0 0).text :=
  ((c6_amended [] "hey" [] ContentType.text 0 0 (by decide)).2.1 (by decide))

/-- C7: saving a text whose trim is empty is a guarded no-op: the state
(and in particular the entry list) is left exactly as it was. -/
theorem c7_theorem : ∀ (ops : List Op) (raw : String) (tags : List String)
    (ct : ContentType) (ni nt : Nat),
    jsTrim raw = "" → saveText (reach ops) raw tags ct ni nt = reach ops :=
  fun _ raw tags ct ni nt h => saveText_of_trim_empty _ raw tags ct ni nt h

/-- C7, witness at a concrete input. -/
theorem c7_witness :
    saveText (reach []) "   " [] ContentType.text 3 3 = reach [] :=
  c7_theorem [] "   " [] ContentType.text 3 3 (by decide)

/-- C8: a corrupt persisted entry list loads as the empty list, a corrupt
persisted tag vocabulary loads as the predefined tags, absent keys keep
the defaults, and a successful parse is used as is; loading is total
(never a hard failure). -/
theorem c8_theorem :
    loadItems (some none) = [] ∧
    loadTags (some none) = PREDEFINED_TAGS ∧
    loadItems none = [] ∧
    loadTags none = PREDEFINED_TAGS ∧
    (∀ its, loadItems (some (some its)) = its) ∧
    (∀ ts, loadTags (some (some ts)) = ts) :=
  ⟨rfl, rfl, rfl, rfl, fun _ => rfl, fun _ => rfl⟩

/-- C9: with the tag filter inactive, the filtered view is exactly the
subsequence of entries whose text contains the query case-insensitively
(order preserved), and the empty query returns all entries. -/
theorem c9_theorem : ∀ (items : List ClipboardItem) (q : String)
    (sel : List String),
    List.Sublist (filteredItems items q sel false) items ∧
    (∀ e, e ∈ filteredItems items q sel false ↔
      e ∈ items ∧ jsIncludes (jsToLower e.text) (jsToLower q) = true) ∧
    filteredItems items "" sel false = items := by
  intro items q sel
  refine ⟨List.filter_sublist _, ?_, ?_⟩
  · intro e
    rw [filteredItems, List.mem_filter]
    simp [matchesSearch, matchesTags_inactive]
  · rw [filteredItems]
    refine List.filter_eq_self.mpr ?_
    intro a _
    rw [matchesTags_inactive, Bool.and_true]
    exact jsIncludes_empty_right _

/-- C10: a stored entry can have type `text` only when its text matches
none of the url, code, or markdown patterns, and an explicit choice of the
sentinel type `text` stores the auto-detected type of the trimmed text. -/
theorem c10_theorem : ∀ (ops : List Op) (raw : String)
    (tags : List String) (ni nt : Nat),
    (∀ e ∈ (reach ops).items, e.type = ContentType.text →
      ¬ urlPattern e.text ∧ ¬ codePattern e.text ∧
        ¬ markdownPattern e.text) ∧
    (jsTrim raw ≠ "" →
      ((saveText (reach ops) raw tags ContentType.text ni
        nt).items.head?.map (fun e => e.type)) =
          some (detectContentType (jsTrim raw))) := by
  intro ops raw tags ni nt
  constructor
  · intro e he het
    exact (detect_characterization e.text).2.2.2.mp
      (reach_type_inv ops e he het)
  · intro h
    rw [saveText_head ops raw tags ContentType.text ni nt h]
    simp [mkNewItem_type]

/-- C10, witness at a concrete input. -/
theorem c10_witness :
    ((saveText (reach []) "https://x.com" [] ContentType.text 2
      2).items.head?.map (fun e => e.type)) =
        some (detectContentType (jsTrim "https://x.com")) :=
  (c10_theorem [] "https://x.com" [] 2 2).2 (by decide)

end Clipboard
